import Mathlib

/-!
Verification of the Magnebot closed-loop action-control engine
(`magnebot/magnebot_controller.py`).

The controller drives a simulated robot through a remote command/response
boundary.  All physics lives on the far side of that boundary, so the
embedding models every quantity that comes back from the simulator
(measured heading angles, displacements, joint-motion flags, solved IK
angles) as an oracle parameter, and models faithfully the pure control
logic that the Python file itself contains: per-iteration wheel-target
arithmetic, attempt caps, loop structure, stopping predicates, the
translation of solved IK angles into joint commands, and the
start/end bracketing of actions.

Numeric values are embedded as rationals: the Python code only ever
adds, subtracts, negates, truncates and compares the floats involved,
and every concrete constant in the control logic is decimal.
-/

/-- The terminal outcomes used by the movement and arm actions
(`magnebot/action_status.py` members referenced by the controller). -/
inductive ActionStatus
  | success
  | unaligned
  | too_many_attempts
  | overshot_move
  | too_far_to_reach
  | failed_to_reach
deriving DecidableEq, BEq

/-- The two arms (`magnebot/arm.py`). -/
inductive Arm
  | left
  | right
deriving DecidableEq, BEq

/-- Expected arm-joint names (`Magnebot.__ArmJoint`, lines 80-91). -/
inductive ArmJoint
  | torso
  | shoulder_left
  | elbow_left
  | wrist_left
  | shoulder_right
  | elbow_right
  | wrist_right
deriving DecidableEq, BEq

/-- Joint articulation kinds (`Magnebot.__JointType`, lines 93-99). -/
inductive JointType
  | revolute
  | spherical
deriving DecidableEq, BEq

/-- The low-level commands the control loops emit.  Only the fields the
claims are about are modelled; targets are rationals standing for the
float payloads. -/
inductive Command
  | set_revolute_target (joint_id : ℕ) (target : ℚ)
  | set_spherical_target (joint_id : ℕ) (x y z : ℚ)
  | enable_image_sensor (enable : Bool)
deriving DecidableEq, BEq

/-- Action-bracket events: one `startAction` per `Magnebot._start_action()`
execution (line 738) and one `endAction` per `Magnebot._end_action()`
execution (line 660). -/
inductive BracketEv
  | startAction
  | endAction
deriving DecidableEq, BEq

/-- The order in which joint angles are set per arm
(`Magnebot.__JOINT_ORDER`, lines 108-115). -/
def jointOrder : Arm → List ArmJoint
  | Arm.left => [ArmJoint.torso, ArmJoint.shoulder_left, ArmJoint.elbow_left, ArmJoint.wrist_left]
  | Arm.right => [ArmJoint.torso, ArmJoint.shoulder_right, ArmJoint.elbow_right, ArmJoint.wrist_right]

/-- The expected articulation per joint (`Magnebot.__JOINT_AXES`,
lines 117-123). -/
def jointAxes : ArmJoint → JointType
  | ArmJoint.torso => JointType.revolute
  | ArmJoint.shoulder_left => JointType.spherical
  | ArmJoint.elbow_left => JointType.revolute
  | ArmJoint.wrist_left => JointType.spherical
  | ArmJoint.shoulder_right => JointType.spherical
  | ArmJoint.elbow_right => JointType.revolute
  | ArmJoint.wrist_right => JointType.spherical

/-- The names of the links of the ikpy `Chain` built by
`Magnebot.__get_arm` (lines 935-975): an `OriginLink`, seven `URDFLink`
joints, and the fixed `magnet` end link.  Both arms produce the same
link list up to a mirrored x-offset, so the list does not depend on the
arm.  `ikpy.chain.Chain.inverse_kinematics_frame` returns one angle per
link of this list. -/
def chainLinks : List String :=
  ["origin_link", "shoulder_pitch", "shoulder_yaw", "shoulder_roll",
   "elbow_pitch", "wrist_pitch", "wrist_yaw", "wrist_roll", "magnet"]

/-- The attempt cap of `turn_by` (line 341):
`num_attempts = int(np.abs(angle) + 1) * speed * 50`.
Python `int()` truncates toward zero; `|angle| + 1 ≥ 1`, so it is the
floor. -/
def numAttemptsTurn (angle speed : ℚ) : ℚ :=
  ((⌊|angle| + 1⌋ : ℤ) : ℚ) * speed * 50

/-- The attempt cap of `move_by` (line 436): the same formula with the
distance in place of the angle. -/
def numAttemptsMove (distance speed : ℚ) : ℚ :=
  ((⌊|distance| + 1⌋ : ℤ) : ℚ) * speed * 50

/-- The revolute target commanded to one wheel on each iteration of the
`turn_by` loop (lines 350-355).  The Python source is

`target = wheel_state.joint_angles[...][0] + speed if angle > 0 else -speed`

for a wheel whose name contains `"left"`, and the same with `- speed`
for the other side.  Python parses the conditional expression as
`(current + speed) if angle > 0 else (-speed)`, which this definition
reproduces verbatim. -/
def wheelTargetTurn (isLeft : Bool) (current angle speed : ℚ) : ℚ :=
  if isLeft then
    if 0 < angle then current + speed else -speed
  else
    if 0 < angle then current - speed else -speed

/-- The revolute target commanded to every wheel on each iteration of the
`move_by` loop (lines 445-446):
`target = wheel_state.joint_angles[...][0] + speed if distance > 0 else -speed`,
again with Python conditional-expression precedence. -/
def wheelTargetMove (current distance speed : ℚ) : ℚ :=
  if 0 < distance then current + speed else -speed

/-- The batch of wheel commands one `turn_by` iteration emits
(lines 347-358).  A wheel is given by its joint id and whether its name
contains `"left"`; `wheelAngles` is the current first joint angle of each
wheel in the settled wheel state. -/
def turnWheelCommands (wheels : List (ℕ × Bool)) (wheelAngles : ℕ → ℚ)
    (angle speed : ℚ) : List Command :=
  wheels.map fun w => Command.set_revolute_target w.1 (wheelTargetTurn w.2 (wheelAngles w.1) angle speed)

/-- The batch of wheel commands one `move_by` iteration emits
(lines 442-449). -/
def moveWheelCommands (wheels : List ℕ) (wheelAngles : ℕ → ℚ)
    (distance speed : ℚ) : List Command :=
  wheels.map fun w => Command.set_revolute_target w (wheelTargetMove (wheelAngles w) distance speed)

/-- `turn_by._get_angle_1` (lines 324-334): the signed deviation derived
from the raw angle `a` between the current forward vector and the initial
forward vector.  Note the `elif`: when the requested angle is negative the
raw angle is negated and the `a > 180` wrap branch is skipped. -/
def getAngle1 (angle_0 a : ℚ) : ℚ :=
  if angle_0 < 0 then -a
  else if 180 < a then 360 - a
  else a

/-- Modelled from the claim C7 wording (not from the source, for
comparison with `getAngle1`): the deviation is negated when the requested
turn is counter-clockwise AND wrapped to `360 - a` whenever the measured
angle exceeds 180, including for counter-clockwise turns. -/
def getAngle1_claimed (angle_0 a : ℚ) : ℚ :=
  (if angle_0 < 0 then -1 else 1) * (if 180 < a then 360 - a else a)

/-- The `turn_by` attempt loop (lines 344-369), abstracted over the
oracle `obs`: `obs k` is the raw angle (`TDWUtils.get_angle_between` of
the settled forward vector after iteration `k` against the initial
forward vector `f0`); `obs 0` belongs to the initial wheel state of
line 337.  The loop runs while `attempts < cap`; each iteration
increments the counter, issues wheel commands, waits for wheel settle
(both external), measures `getAngle1`, and returns success when the
deviation is within `aligned_at`.  The result is the final value of
`attempts` paired with whether the loop returned success from inside.
`fuel` is a structural-recursion bound; `turnRun` supplies enough fuel
that it never binds before the loop condition does. -/
def turnLoop (angle aligned_at cap : ℚ) (obs : ℕ → ℚ) : ℕ → ℕ → ℕ × Bool
  | attempts, 0 => (attempts, false)
  | attempts, fuel + 1 =>
    if (attempts : ℚ) < cap then
      if |getAngle1 angle (obs (attempts + 1)) - angle| < aligned_at then
        (attempts + 1, true)
      else
        turnLoop angle aligned_at cap obs (attempts + 1) fuel
    else (attempts, false)

/-- The `turn_by` loop run from `attempts = 0` with sufficient fuel. -/
def turnRun (angle speed aligned_at : ℚ) (obs : ℕ → ℚ) : ℕ × Bool :=
  turnLoop angle aligned_at (numAttemptsTurn angle speed) obs 0
    (Nat.ceil (numAttemptsTurn angle speed) + 1)

/-- `Magnebot.turn_by` (lines 303-377): the status, paired with the
trace of action-bracket events the call executes (`_start_action` at
line 336; `_end_action` at line 368 on the in-loop success path and at
line 370 otherwise).  After the loop the deviation is re-measured from
the same settled wheel state (`obs r.1`) and the status chosen by
lines 371-377. -/
def turnBy (angle speed aligned_at : ℚ) (obs : ℕ → ℚ) : ActionStatus × List BracketEv :=
  let r := turnRun angle speed aligned_at obs
  if r.2 = true then
    (ActionStatus.success, [BracketEv.startAction, BracketEv.endAction])
  else if |getAngle1 angle (obs r.1) - angle| < aligned_at then
    (ActionStatus.success, [BracketEv.startAction, BracketEv.endAction])
  else if numAttemptsTurn angle speed ≤ (r.1 : ℚ) then
    (ActionStatus.too_many_attempts, [BracketEv.startAction, BracketEv.endAction])
  else
    (ActionStatus.unaligned, [BracketEv.startAction, BracketEv.endAction])

/-- `Magnebot.turn_to` (lines 379-410): resolves the target into a
heading angle (external geometry, passed resolved here), executes its own
`_start_action` (line 407), then delegates to the public `turn_by`, which
brackets again. -/
def turnTo (angle speed aligned_at : ℚ) (obs : ℕ → ℚ) : ActionStatus × List BracketEv :=
  let r := turnBy angle speed aligned_at obs
  (r.1, BracketEv.startAction :: r.2)

/-- The `move_by` attempt loop (lines 440-458), abstracted over the
oracle `dObs`: `dObs k` is the measured displacement
`np.linalg.norm(p1 - p0)` after iteration `k`, where `p0` is the position
recorded at action start.  The loop runs while
`d < |distance| and attempts < cap`; each iteration issues wheel
commands, waits for settle (external), then updates `d` and increments
`attempts`.  Returns the final `(d, attempts)`. -/
def moveLoop (absDist cap : ℚ) (dObs : ℕ → ℚ) : ℚ → ℕ → ℕ → ℚ × ℕ
  | d, attempts, 0 => (d, attempts)
  | d, attempts, fuel + 1 =>
    if d < absDist ∧ (attempts : ℚ) < cap then
      moveLoop absDist cap dObs (dObs (attempts + 1)) (attempts + 1) fuel
    else (d, attempts)

/-- The `move_by` loop run from `d = 0`, `attempts = 0` with sufficient
fuel. -/
def moveRun (distance speed : ℚ) (dObs : ℕ → ℚ) : ℚ × ℕ :=
  moveLoop |distance| (numAttemptsMove distance speed) dObs 0 0
    (Nat.ceil (numAttemptsMove distance speed) + 1)

/-- `Magnebot.move_by` (lines 412-465): the status (lines 460-465,
`success` when `||distance| - d| < arrived_at`, else `too_many_attempts`
when `attempts >= num_attempts`, else `overshot_move`) paired with the
bracket trace (`_start_action` line 429, `_end_action` line 459). -/
def moveBy (distance speed arrived_at : ℚ) (dObs : ℕ → ℚ) : ActionStatus × List BracketEv :=
  let r := moveRun distance speed dObs
  if |(|distance|) - r.1| < arrived_at then
    (ActionStatus.success, [BracketEv.startAction, BracketEv.endAction])
  else if numAttemptsMove distance speed ≤ (r.2 : ℚ) then
    (ActionStatus.too_many_attempts, [BracketEv.startAction, BracketEv.endAction])
  else
    (ActionStatus.overshot_move, [BracketEv.startAction, BracketEv.endAction])

/-- `Magnebot.move_to` (lines 467-508): calls the public `turn_to`,
executes its own `_start_action` (line 494), then either delegates to the
public `move_by` (`moveDist` is the externally computed straight-line
distance) or closes the bracket and returns the turn status. -/
def moveTo (turnAngle moveDist turn_speed aligned_at move_speed arrived_at : ℚ)
    (moveOnTurnFail : Bool) (obs dObs : ℕ → ℚ) : ActionStatus × List BracketEv :=
  let t := turnTo turnAngle turn_speed aligned_at obs
  if t.1 = ActionStatus.success ∨ moveOnTurnFail = true then
    let m := moveBy moveDist move_speed arrived_at dObs
    (m.1, t.2 ++ [BracketEv.startAction] ++ m.2)
  else
    (t.1, t.2 ++ [BracketEv.startAction] ++ [BracketEv.endAction])

/-- The `_do_arm_motion` loop (lines 856-865), abstracted over the oracle
`mv`: `mv k` is whether some arm joint moved by more than `0.001` between
the states of iterations `k - 1` and `k`.  `moving` starts `true`
(line 855); the loop runs while `moving and attempts < 200`, each
iteration recomputing `moving` and incrementing `attempts`.  Returns the
final `moving` flag.  `fuel` is a structural bound; 201 units make the
`attempts < 200` condition the binding one. -/
def armLoop (mv : ℕ → Bool) : Bool → ℕ → ℕ → Bool
  | moving, _, 0 => moving
  | moving, attempts, fuel + 1 =>
    if moving = true ∧ attempts < 200 then
      armLoop mv (mv (attempts + 1)) (attempts + 1) fuel
    else moving

/-- `Magnebot._do_arm_motion` (lines 845-869): `too_many_attempts` when
the loop exits still moving, else `success`. -/
def doArmMotion (mv : ℕ → Bool) : ActionStatus :=
  if armLoop mv true 0 201 = true then ActionStatus.too_many_attempts
  else ActionStatus.success

/-- The joint-command translation walk of `Magnebot._start_ik`
(lines 799-818): walks `__JOINT_ORDER[arm]` with an index `i` into the
degree-converted angle list, consuming one angle per revolute joint and
three per spherical joint, while `i < len(angles)`.  A Python
`IndexError` — reading past the end of the angle list for a spherical
triple, or past the end of the joint order while angles remain — is
modelled as `none`.  `ids` models the `arm_joints` id lookup. -/
def walkCommands (ids : ArmJoint → ℕ) : List ArmJoint → List ℚ → Option (List Command)
  | _, [] => some []
  | [], _ :: _ => none
  | j :: rest, a :: angles =>
    match jointAxes j with
    | JointType.revolute =>
      (walkCommands ids rest angles).map fun cmds =>
        Command.set_revolute_target (ids j) a :: cmds
    | JointType.spherical =>
      match angles with
      | b :: c :: angles2 =>
        (walkCommands ids rest angles2).map fun cmds =>
          Command.set_spherical_target (ids j) a b c :: cmds
      | _ => none

/-- The slicing `angles[1:-1]` applied at line 797 to the solved-angle
sequence before the radians-to-degrees conversion: drops the first angle
(the `OriginLink`) and the last (the fixed `magnet` link). -/
def stripAngles (raw : List ℚ) : List ℚ :=
  (raw.drop 1).dropLast

/-- `Magnebot._start_ik` (lines 746-820) from the feasibility check on:
the external IK solve and forward-kinematics recomputation are summarised
by `dPredicted`, the distance between the predicted end-effector position
and the target (line 792).  When `check_if_possible` holds and
`dPredicted > arrived_at`, the function returns `too_far_to_reach` at
line 796, before the command walk, leaving `_next_frame_commands`
(`queue`) untouched.  Otherwise the walk runs on the degree-converted
angle list and its commands are appended to the queue (line 819);
`none` models the walk raising. -/
def startIK (check : Bool) (dPredicted arrived_at : ℚ) (ids : ArmJoint → ℕ) (arm : Arm)
    (anglesDeg : List ℚ) (queue : List Command) : Option (ActionStatus × List Command) :=
  if check = true ∧ arrived_at < dPredicted then
    some (ActionStatus.too_far_to_reach, queue)
  else
    match walkCommands ids (jointOrder arm) anglesDeg with
    | some cmds => some (ActionStatus.success, queue ++ cmds)
    | none => none

/-- `Magnebot.reach_for` (lines 510-562): brackets the action
(`_start_action` appends the sensor-disabling command to the queue and is
recorded as a `startAction` event), starts the IK action, and on IK
failure ends and returns that status directly (lines 542-544).  Otherwise
it waits for the arm motion and, when `_do_arm_motion` did not return
`success`, returns that status directly (lines 547-550); only in the
remaining case is the final magnet distance `dFinal` compared against
`arrived_at` (lines 552-562).  `none` models the translation walk
raising. -/
def reachFor (check : Bool) (dPredicted arrived_at : ℚ) (ids : ArmJoint → ℕ) (arm : Arm)
    (anglesDeg : List ℚ) (mv : ℕ → Bool) (dFinal : ℚ) (queue : List Command) :
    Option (ActionStatus × List BracketEv × List Command) :=
  let q1 := queue ++ [Command.enable_image_sensor false]
  match startIK check dPredicted arrived_at ids arm anglesDeg q1 with
  | none => none
  | some (st, q2) =>
    if st = ActionStatus.success then
      let st2 := doArmMotion mv
      if st2 = ActionStatus.success then
        some (if dFinal < arrived_at then ActionStatus.success else ActionStatus.failed_to_reach,
          [BracketEv.startAction, BracketEv.endAction], q2)
      else
        some (st2, [BracketEv.startAction, BracketEv.endAction], q2)
    else
      some (st, [BracketEv.startAction, BracketEv.endAction], q2)

/-- `Magnebot.__get_arm_reset_commands` (lines 822-843): one zero target
per joint of the arm's joint order, revolute or spherical by
`__JOINT_AXES`. -/
def armResetCommands (ids : ArmJoint → ℕ) (arm : Arm) : List Command :=
  (jointOrder arm).map fun j =>
    match jointAxes j with
    | JointType.revolute => Command.set_revolute_target (ids j) 0
    | JointType.spherical => Command.set_spherical_target (ids j) 0 0 0

/-- `Magnebot.reset_arm` (lines 564-581): bracket, queue the reset
commands, wait for arm motion, end. -/
def resetArm (ids : ArmJoint → ℕ) (arm : Arm) (mv : ℕ → Bool) (queue : List Command) :
    ActionStatus × List BracketEv × List Command :=
  (doArmMotion mv, [BracketEv.startAction, BracketEv.endAction],
    queue ++ [Command.enable_image_sensor false] ++ armResetCommands ids arm)

/-- `Magnebot.reset_arms` (lines 583-602): bracket, queue both arms'
reset commands, wait for arm motion, end. -/
def resetArms (ids : ArmJoint → ℕ) (mv : ℕ → Bool) (queue : List Command) :
    ActionStatus × List BracketEv × List Command :=
  (doArmMotion mv, [BracketEv.startAction, BracketEv.endAction],
    queue ++ [Command.enable_image_sensor false]
      ++ armResetCommands ids Arm.left ++ armResetCommands ids Arm.right)

/-! ### Helper lemmas about the loops -/

theorem natCast_lt_cap_iff {cap : ℚ} {n : ℕ} : (n : ℚ) < cap ↔ n < Nat.ceil cap :=
  Nat.lt_ceil.symm

theorem turnLoop_fst_le (angle aligned_at cap : ℚ) (obs : ℕ → ℚ) :
    ∀ fuel attempts, attempts ≤ Nat.ceil cap →
      (turnLoop angle aligned_at cap obs attempts fuel).1 ≤ Nat.ceil cap := by
  intro fuel
  induction fuel with
  | zero => intro attempts h; simpa [turnLoop] using h
  | succ fuel ih =>
    intro attempts h
    rw [turnLoop]
    by_cases hc : (attempts : ℚ) < cap
    · have hlt : attempts < Nat.ceil cap := natCast_lt_cap_iff.mp hc
      rw [if_pos hc]
      by_cases ht : |getAngle1 angle (obs (attempts + 1)) - angle| < aligned_at
      · rw [if_pos ht]; exact hlt
      · rw [if_neg ht]; exact ih (attempts + 1) hlt
    · rw [if_neg hc]; exact h

theorem turnLoop_success (angle aligned_at cap : ℚ) (obs : ℕ → ℚ) :
    ∀ fuel attempts n, turnLoop angle aligned_at cap obs attempts fuel = (n, true) →
      attempts < n ∧ n ≤ Nat.ceil cap ∧
        |getAngle1 angle (obs n) - angle| < aligned_at := by
  intro fuel
  induction fuel with
  | zero => intro attempts n h; simp [turnLoop] at h
  | succ fuel ih =>
    intro attempts n h
    rw [turnLoop] at h
    by_cases hc : (attempts : ℚ) < cap
    · rw [if_pos hc] at h
      by_cases ht : |getAngle1 angle (obs (attempts + 1)) - angle| < aligned_at
      · rw [if_pos ht] at h
        have hn : n = attempts + 1 := by
          have := congrArg Prod.fst h
          simpa using this.symm
        subst hn
        exact ⟨Nat.lt_succ_self attempts, natCast_lt_cap_iff.mp hc, ht⟩
      · rw [if_neg ht] at h
        obtain ⟨h1, h2, h3⟩ := ih (attempts + 1) n h
        exact ⟨Nat.lt_of_succ_lt h1, h2, h3⟩
    · rw [if_neg hc] at h
      simp at h

theorem turnLoop_no_success (angle aligned_at cap : ℚ) (obs : ℕ → ℚ) :
    ∀ fuel attempts, attempts ≤ Nat.ceil cap → Nat.ceil cap ≤ attempts + fuel →
      (∀ k, attempts < k → k ≤ Nat.ceil cap →
        ¬ |getAngle1 angle (obs k) - angle| < aligned_at) →
      turnLoop angle aligned_at cap obs attempts fuel = (Nat.ceil cap, false) := by
  intro fuel
  induction fuel with
  | zero =>
    intro attempts h1 h2 _
    have : attempts = Nat.ceil cap := le_antisymm h1 (by simpa using h2)
    simp [turnLoop, this]
  | succ fuel ih =>
    intro attempts h1 h2 hk
    rw [turnLoop]
    by_cases hc : (attempts : ℚ) < cap
    · have hlt : attempts < Nat.ceil cap := natCast_lt_cap_iff.mp hc
      rw [if_pos hc]
      have hnt : ¬ |getAngle1 angle (obs (attempts + 1)) - angle| < aligned_at :=
        hk (attempts + 1) (Nat.lt_succ_self attempts) hlt
      rw [if_neg hnt]
      exact ih (attempts + 1) hlt (by omega)
        (fun k hk1 hk2 => hk k (Nat.lt_of_succ_lt hk1) hk2)
    · have hge : Nat.ceil cap ≤ attempts := Nat.le_of_not_lt (fun h => hc (natCast_lt_cap_iff.mpr h))
      have : attempts = Nat.ceil cap := le_antisymm h1 hge
      rw [if_neg hc, this]

theorem turnLoop_of_exists (angle aligned_at cap : ℚ) (obs : ℕ → ℚ) :
    ∀ fuel attempts, Nat.ceil cap ≤ attempts + fuel →
      (∃ k, attempts < k ∧ k ≤ Nat.ceil cap ∧
        |getAngle1 angle (obs k) - angle| < aligned_at) →
      (turnLoop angle aligned_at cap obs attempts fuel).2 = true := by
  intro fuel
  induction fuel with
  | zero =>
    intro attempts h1 ⟨k, hk1, hk2, _⟩
    omega
  | succ fuel ih =>
    intro attempts h1 ⟨k, hk1, hk2, hk3⟩
    have hlt : attempts < Nat.ceil cap := Nat.lt_of_lt_of_le hk1 hk2
    have hc : (attempts : ℚ) < cap := natCast_lt_cap_iff.mpr hlt
    rw [turnLoop, if_pos hc]
    by_cases ht : |getAngle1 angle (obs (attempts + 1)) - angle| < aligned_at
    · rw [if_pos ht]
    · rw [if_neg ht]
      refine ih (attempts + 1) (by omega) ⟨k, ?_, hk2, hk3⟩
      rcases Nat.lt_or_ge (attempts + 1) k with h | h
      · exact h
      · exfalso
        have : k = attempts + 1 := by omega
        exact ht (this ▸ hk3)

/-- Every run of the `turn_by` loop either returns success from inside at
some attempt in `[1, ⌈cap⌉]` whose measured deviation is within
`aligned_at`, or exhausts the attempt budget with every measured
deviation out of tolerance. -/
theorem turnRun_cases (angle speed aligned_at : ℚ) (obs : ℕ → ℚ) :
    ((turnRun angle speed aligned_at obs).2 = true ∧
      ∃ k, 1 ≤ k ∧ k ≤ Nat.ceil (numAttemptsTurn angle speed) ∧
        |getAngle1 angle (obs k) - angle| < aligned_at) ∨
    (turnRun angle speed aligned_at obs = (Nat.ceil (numAttemptsTurn angle speed), false) ∧
      ∀ k, 1 ≤ k → k ≤ Nat.ceil (numAttemptsTurn angle speed) →
        ¬ |getAngle1 angle (obs k) - angle| < aligned_at) := by
  by_cases h : ∃ k, 1 ≤ k ∧ k ≤ Nat.ceil (numAttemptsTurn angle speed) ∧
      |getAngle1 angle (obs k) - angle| < aligned_at
  · left
    obtain ⟨k, hk1, hk2, hk3⟩ := h
    exact ⟨turnLoop_of_exists _ _ _ _ _ 0 (by omega) ⟨k, hk1, hk2, hk3⟩,
      ⟨k, hk1, hk2, hk3⟩⟩
  · right
    push_neg at h
    refine ⟨turnLoop_no_success _ _ _ _ _ 0 (Nat.zero_le _) (by omega) ?_, ?_⟩
    · intro k hk1 hk2
      exact not_lt.mpr (h k hk1 hk2)
    · intro k hk1 hk2
      exact not_lt.mpr (h k hk1 hk2)

theorem moveLoop_snd_le (absDist cap : ℚ) (dObs : ℕ → ℚ) :
    ∀ fuel d attempts, attempts ≤ Nat.ceil cap →
      (moveLoop absDist cap dObs d attempts fuel).2 ≤ Nat.ceil cap := by
  intro fuel
  induction fuel with
  | zero => intro d attempts h; simpa [moveLoop] using h
  | succ fuel ih =>
    intro d attempts h
    rw [moveLoop]
    by_cases hc : d < absDist ∧ (attempts : ℚ) < cap
    · rw [if_pos hc]
      exact ih _ (attempts + 1) (natCast_lt_cap_iff.mp hc.2)
    · rw [if_neg hc]; exact h

theorem armLoop_congr (mv mv2 : ℕ → Bool) :
    ∀ fuel moving attempts, (∀ k, attempts < k → k ≤ 200 → mv k = mv2 k) →
      armLoop mv moving attempts fuel = armLoop mv2 moving attempts fuel := by
  intro fuel
  induction fuel with
  | zero => intro moving attempts _; simp [armLoop]
  | succ fuel ih =>
    intro moving attempts h
    rw [armLoop, armLoop]
    by_cases hc : moving = true ∧ attempts < 200
    · rw [if_pos hc, if_pos hc, h (attempts + 1) (Nat.lt_succ_self attempts) hc.2]
      exact ih _ (attempts + 1) (fun k hk1 hk2 => h k (Nat.lt_of_succ_lt hk1) hk2)
    · rw [if_neg hc, if_neg hc]

theorem turnBy_trace (angle speed aligned_at : ℚ) (obs : ℕ → ℚ) :
    (turnBy angle speed aligned_at obs).2 = [BracketEv.startAction, BracketEv.endAction] := by
  rw [turnBy]
  split <;> try rfl
  split <;> try rfl
  split <;> rfl

theorem moveBy_trace (distance speed arrived_at : ℚ) (dObs : ℕ → ℚ) :
    (moveBy distance speed arrived_at dObs).2 = [BracketEv.startAction, BracketEv.endAction] := by
  rw [moveBy]
  split <;> try rfl
  split <;> rfl

theorem reachFor_trace (check : Bool) (dPredicted arrived_at : ℚ) (ids : ArmJoint → ℕ)
    (arm : Arm) (anglesDeg : List ℚ) (mv : ℕ → Bool) (dFinal : ℚ) (queue : List Command) :
    ∀ st tr q2, reachFor check dPredicted arrived_at ids arm anglesDeg mv dFinal queue =
      some (st, tr, q2) → tr = [BracketEv.startAction, BracketEv.endAction] := by
  intro st tr q2 h
  rw [reachFor] at h
  rcases hik : startIK check dPredicted arrived_at ids arm anglesDeg
      (queue ++ [Command.enable_image_sensor false]) with _ | ⟨st1, q1⟩
  · rw [hik] at h; simp at h
  · rw [hik] at h
    simp only at h
    by_cases h1 : st1 = ActionStatus.success
    · rw [if_pos h1] at h
      by_cases h2 : doArmMotion mv = ActionStatus.success
      · rw [if_pos h2] at h
        simp only [Option.some.injEq, Prod.mk.injEq] at h
        exact h.2.1.symm
      · rw [if_neg h2] at h
        simp only [Option.some.injEq, Prod.mk.injEq] at h
        exact h.2.1.symm
    · rw [if_neg h1] at h
      simp only [Option.some.injEq, Prod.mk.injEq] at h
      exact h.2.1.symm

/-! ### Claim theorems -/

/-- Claim C1 (code bug).  The claim states that on every `turn_by`
iteration each wheel's revolute target differs from the wheel's current
angle by exactly `speed` in magnitude, incremented on one side and
decremented on the other, sign chosen by the sign of the requested angle.
The source (lines 350-355) parses the conditional expression so that for
a non-positive requested angle the target is the bare value `-speed` on
BOTH sides, ignoring the current wheel angle: with current angle `100`,
`angle = -30`, `speed = 15`, both sides are commanded to `-15`, which is
`115` away from the current angle, not `15`.  For a positive angle the
targets do match the claim. -/
theorem turn_wheel_target_bug :
    wheelTargetTurn true 100 30 15 = 100 + 15 ∧
    wheelTargetTurn false 100 30 15 = 100 - 15 ∧
    wheelTargetTurn true 100 (-30) 15 = -15 ∧
    wheelTargetTurn false 100 (-30) 15 = -15 ∧
    |wheelTargetTurn true 100 (-30) 15 - 100| = 115 ∧
    ¬ |wheelTargetTurn true 100 (-30) 15 - 100| = 15 ∧
    turnWheelCommands [(3, true), (4, false)] (fun _ => 100) (-30) 15 =
      [Command.set_revolute_target 3 (-15), Command.set_revolute_target 4 (-15)] := by
  refine ⟨by norm_num [wheelTargetTurn], by norm_num [wheelTargetTurn],
    by norm_num [wheelTargetTurn], by norm_num [wheelTargetTurn], ?_, ?_, ?_⟩
  · norm_num [wheelTargetTurn]
  · norm_num [wheelTargetTurn]
  · norm_num [turnWheelCommands, wheelTargetTurn]

/-- Claim C2 (code bug).  The claim states that on every `move_by`
iteration every wheel's target is its current angle plus a signed `speed`
increment whose sign is the direction of travel.  The source
(lines 445-446) parses the conditional expression so that for a
non-positive requested distance the target is the bare value `-speed`,
ignoring the current wheel angle: with current angle `100`,
`distance = -3`, `speed = 15`, the commanded target is `-15`, which is
`115` away from the current angle, not `15`.  For a positive distance the
target does match the claim. -/
theorem move_wheel_target_bug :
    wheelTargetMove 100 3 15 = 100 + 15 ∧
    wheelTargetMove 100 (-3) 15 = -15 ∧
    |wheelTargetMove 100 (-3) 15 - 100| = 115 ∧
    ¬ |wheelTargetMove 100 (-3) 15 - 100| = 15 ∧
    moveWheelCommands [3, 4] (fun _ => 100) (-3) 15 =
      [Command.set_revolute_target 3 (-15), Command.set_revolute_target 4 (-15)] := by
  refine ⟨by norm_num [wheelTargetMove], by norm_num [wheelTargetMove], ?_, ?_, ?_⟩
  · norm_num [wheelTargetMove]
  · norm_num [wheelTargetMove]
  · norm_num [moveWheelCommands, wheelTargetMove]

/-- Claim C3, counterexample.  The claim says the cap is
`ceil(|angle| + 1) * speed * 50`.  At the non-integer angle `1/2` with
`speed = 15` the source cap (`int()`, which truncates) is `750`, while
the claimed ceiling formula gives `1500`. -/
theorem numAttempts_ceil_cex :
    numAttemptsTurn (1/2) 15 = 750 ∧
    numAttemptsMove (1/2) 15 = 750 ∧
    ((⌈|((1 : ℚ)/2)| + 1⌉ : ℤ) : ℚ) * 15 * 50 = 1500 ∧
    (750 : ℚ) ≠ 1500 := by
  have hfloor : (⌊|((1 : ℚ)/2)| + 1⌋ : ℤ) = 1 := by
    rw [show |((1 : ℚ)/2)| = 1/2 by norm_num]
    rw [Int.floor_eq_iff] ; norm_num
  have hceil : (⌈|((1 : ℚ)/2)| + 1⌉ : ℤ) = 2 := by
    rw [show |((1 : ℚ)/2)| = 1/2 by norm_num]
    rw [Int.ceil_eq_iff] ; norm_num
  refine ⟨?_, ?_, ?_, by norm_num⟩
  · rw [numAttemptsTurn, hfloor]; norm_num
  · rw [numAttemptsMove, hfloor]; norm_num
  · rw [hceil]; norm_num

/-- Claim C3 as amended.  The attempt caps of `turn_by` (line 341) and
`move_by` (line 436) are `(floor(|angle|) + 1) * speed * 50` — Python
`int()` truncates `|angle| + 1` instead of taking its ceiling — which
agrees with the claimed `ceil(|angle| + 1) * speed * 50` exactly at
integer angles/distances.  The loops indeed perform at most that many
attempts: the final attempt counters are bounded by the cap's ceiling. -/
theorem numAttempts_floor_formula :
    (∀ angle speed : ℚ,
      numAttemptsTurn angle speed = ((⌊|angle|⌋ : ℤ) + 1 : ℚ) * speed * 50) ∧
    (∀ distance speed : ℚ,
      numAttemptsMove distance speed = ((⌊|distance|⌋ : ℤ) + 1 : ℚ) * speed * 50) ∧
    (∀ (n : ℤ) (speed : ℚ),
      numAttemptsTurn (n : ℚ) speed = ((⌈|(n : ℚ)| + 1⌉ : ℤ) : ℚ) * speed * 50) ∧
    (∀ (angle speed aligned_at : ℚ) (obs : ℕ → ℚ),
      (turnRun angle speed aligned_at obs).1 ≤ Nat.ceil (numAttemptsTurn angle speed)) ∧
    (∀ (distance speed : ℚ) (dObs : ℕ → ℚ),
      (moveRun distance speed dObs).2 ≤ Nat.ceil (numAttemptsMove distance speed)) := by
  refine ⟨?_, ?_, ?_, ?_, ?_⟩
  · intro angle speed
    rw [numAttemptsTurn, Int.floor_add_one]
    push_cast
    ring
  · intro distance speed
    rw [numAttemptsMove, Int.floor_add_one]
    push_cast
    ring
  · intro n speed
    rw [numAttemptsTurn]
    have h1 : |(n : ℚ)| + 1 = (((|n| + 1 : ℤ)) : ℚ) := by push_cast; ring
    rw [h1, Int.floor_intCast, Int.ceil_intCast]
  · intro angle speed aligned_at obs
    exact turnLoop_fst_le _ _ _ _ _ 0 (Nat.zero_le _)
  · intro distance speed dObs
    exact moveLoop_snd_le _ _ _ _ _ 0 (Nat.zero_le _)

/-- Claim C7, counterexample.  The claim says the wrap to `360 - a` is
applied whenever the measured angle exceeds 180, including for
counter-clockwise turns.  In the source (lines 324-334) the wrap branch
is an `elif`: for a requested angle of `-10` and a measured raw angle of
`200`, the code returns `-200`, while the claimed convention gives
`-160`. -/
theorem turn_angle_wrap_cex :
    getAngle1 (-10) 200 = -200 ∧
    getAngle1_claimed (-10) 200 = -160 ∧
    getAngle1 (-10) 200 ≠ getAngle1_claimed (-10) 200 := by
  refine ⟨by norm_num [getAngle1], by norm_num [getAngle1_claimed], ?_⟩
  norm_num [getAngle1, getAngle1_claimed]

/-- Claim C7 as amended.  The deviation used by the `turn_by` stopping
predicate negates the measured angle when the requested turn is
counter-clockwise (requested angle `< 0`) WITHOUT wrapping it, and wraps
it to `360 - a` only when the requested angle is non-negative and the
measured angle exceeds 180; a tick yields success exactly when
`|deviation - requested| < aligned_at` (here: a first-tick in-tolerance
measurement makes `turn_by` return `success`, provided the cap admits at
least one attempt). -/
theorem turn_angle_sign_wrap (angle_0 a aligned_at speed : ℚ) (obs : ℕ → ℚ) :
    (angle_0 < 0 → getAngle1 angle_0 a = -a) ∧
    (0 ≤ angle_0 → 180 < a → getAngle1 angle_0 a = 360 - a) ∧
    (0 ≤ angle_0 → a ≤ 180 → getAngle1 angle_0 a = a) ∧
    (0 < numAttemptsTurn angle_0 speed →
      |getAngle1 angle_0 (obs 1) - angle_0| < aligned_at →
      (turnBy angle_0 speed aligned_at obs).1 = ActionStatus.success) := by
  refine ⟨?_, ?_, ?_, ?_⟩
  · intro h; rw [getAngle1, if_pos h]
  · intro h1 h2; rw [getAngle1, if_neg (not_lt.mpr h1), if_pos h2]
  · intro h1 h2; rw [getAngle1, if_neg (not_lt.mpr h1), if_neg (not_lt.mpr h2)]
  · intro hcap htick
    have hone : 1 ≤ Nat.ceil (numAttemptsTurn angle_0 speed) :=
      Nat.one_le_iff_ne_zero.mpr (by
        intro h
        exact absurd hcap (not_lt.mpr (Nat.ceil_eq_zero.mp h)))
    have hs : (turnRun angle_0 speed aligned_at obs).2 = true :=
      turnLoop_of_exists _ _ _ _ _ 0 (by omega) ⟨1, Nat.one_pos, hone, htick⟩
    rw [turnBy]
    simp only [hs, if_pos]

theorem turnTo_trace (angle speed aligned_at : ℚ) (obs : ℕ → ℚ) :
    (turnTo angle speed aligned_at obs).2 =
      [BracketEv.startAction, BracketEv.startAction, BracketEv.endAction] := by
  rw [turnTo]
  simp [turnBy_trace]

/-- Claim C4 (confirmed).  `too_many_attempts` is returned by `turn_by`
exactly when every measured deviation across the whole attempt budget
(and the post-loop re-measurement, which for an empty budget reads the
initial state) is out of tolerance, and by `move_by` exactly when the
attempt counter reached the cap and the final displacement error is not
within `arrived_at`.  In particular it is never returned when the
stopping predicate is met at the decisive final measurement, and always
returned when the cap is reached with the predicate unmet. -/
theorem too_many_attempts_iff (angle speed aligned_at : ℚ) (obs : ℕ → ℚ)
    (distance mspeed arrived_at : ℚ) (dObs : ℕ → ℚ) :
    ((turnBy angle speed aligned_at obs).1 = ActionStatus.too_many_attempts ↔
      ((∀ k, 1 ≤ k → k ≤ Nat.ceil (numAttemptsTurn angle speed) →
          ¬ |getAngle1 angle (obs k) - angle| < aligned_at) ∧
        ¬ |getAngle1 angle (obs (Nat.ceil (numAttemptsTurn angle speed))) - angle| < aligned_at)) ∧
    ((moveBy distance mspeed arrived_at dObs).1 = ActionStatus.too_many_attempts ↔
      (numAttemptsMove distance mspeed ≤ ((moveRun distance mspeed dObs).2 : ℚ) ∧
        ¬ |(|distance|) - (moveRun distance mspeed dObs).1| < arrived_at)) := by
  constructor
  · rcases turnRun_cases angle speed aligned_at obs with ⟨hs, k, hk1, hk2, hk3⟩ | ⟨hrun, hall⟩
    · have hTB : (turnBy angle speed aligned_at obs).1 = ActionStatus.success := by
        simp [turnBy, hs]
      constructor
      · intro h; rw [hTB] at h; simp at h
      · rintro ⟨h1, _⟩; exact absurd hk3 (h1 k hk1 hk2)
    · have hcap := Nat.le_ceil (numAttemptsTurn angle speed)
      by_cases hN : |getAngle1 angle
          (obs (Nat.ceil (numAttemptsTurn angle speed))) - angle| < aligned_at
      · have hTB : (turnBy angle speed aligned_at obs).1 = ActionStatus.success := by
          simp [turnBy, hrun, hN]
        constructor
        · intro h; rw [hTB] at h; simp at h
        · rintro ⟨_, h2⟩; exact absurd hN h2
      · have hTB : (turnBy angle speed aligned_at obs).1 = ActionStatus.too_many_attempts := by
          simp [turnBy, hrun, hN, hcap]
        constructor
        · intro _; exact ⟨hall, hN⟩
        · intro _; exact hTB
  · by_cases h1 : |(|distance|) - (moveRun distance mspeed dObs).1| < arrived_at
    · have hMB : (moveBy distance mspeed arrived_at dObs).1 = ActionStatus.success := by
        simp [moveBy, h1]
      constructor
      · intro h; rw [hMB] at h; simp at h
      · rintro ⟨_, hc⟩; exact absurd h1 hc
    · by_cases h2 : numAttemptsMove distance mspeed ≤ ((moveRun distance mspeed dObs).2 : ℚ)
      · have hMB : (moveBy distance mspeed arrived_at dObs).1 =
            ActionStatus.too_many_attempts := by
          simp [moveBy, h1, h2]
        constructor
        · intro _; exact ⟨h2, h1⟩
        · intro _; exact hMB
      · have hMB : (moveBy distance mspeed arrived_at dObs).1 = ActionStatus.overshot_move := by
          simp [moveBy, h1, h2]
        constructor
        · intro h; rw [hMB] at h; simp at h
        · rintro ⟨hc, _⟩; exact absurd hc h2

/-- Witness for `too_many_attempts_iff`: a concrete run in which no
measurement is ever in tolerance does return `too_many_attempts`. -/
theorem too_many_attempts_iff_witness :
    (turnBy 0 15 3 (fun _ => 1000)).1 = ActionStatus.too_many_attempts := by
  have h := (too_many_attempts_iff 0 15 3 (fun _ => 1000) 0 15 (1/10) (fun _ => 0)).1
  refine h.mpr ⟨?_, ?_⟩
  · intro k _ _
    norm_num [getAngle1]
  · norm_num [getAngle1]

/-- Claim C10 (confirmed).  `turn_by` never returns
`ActionStatus.unaligned`: the loop exits only by returning success from
inside or with its attempt counter at least the cap, so the post-loop
classification (lines 371-377) always takes the `success` or
`too_many_attempts` branch and the `unaligned` branch is unreachable. -/
theorem turn_by_never_unaligned (angle speed aligned_at : ℚ) (obs : ℕ → ℚ) :
    (turnBy angle speed aligned_at obs).1 ≠ ActionStatus.unaligned := by
  rcases turnRun_cases angle speed aligned_at obs with ⟨hs, _⟩ | ⟨hrun, _⟩
  · simp [turnBy, hs]
  · have hcap := Nat.le_ceil (numAttemptsTurn angle speed)
    by_cases hN : |getAngle1 angle
        (obs (Nat.ceil (numAttemptsTurn angle speed))) - angle| < aligned_at
    · simp [turnBy, hrun, hN]
    · simp [turnBy, hrun, hN, hcap]

/-- Claim C5, counterexample.  With the feasibility check passing, arm
joints that never stop moving, and a final magnet distance of `10`
(far beyond `arrived_at = 1`), `reach_for` returns the raw
`too_many_attempts` of `_do_arm_motion` (lines 547-550) instead of the
`failed_to_reach` the claim asserts. -/
theorem reach_raw_tma_cex :
    (reachFor true 0 1 (fun _ => 0) Arm.left [0, 0, 0, 0, 0, 0, 0, 0]
        (fun _ => true) 10 []).map (fun r => r.1) =
      some ActionStatus.too_many_attempts ∧
    ActionStatus.too_many_attempts ≠ ActionStatus.failed_to_reach := by
  constructor
  · decide
  · decide

/-- Claim C5 as amended.  The arm-bending sub-loop advances at most 200
ticks (only the first 200 motion observations can influence the
outcome), and `_do_arm_motion` returns only `success` or
`too_many_attempts`.  When the cap is hit while a joint is still moving,
`reach_for` returns that `too_many_attempts` unchanged — it does NOT
convert it to `failed_to_reach` — and only when the sub-loop ends with
the joints settled is the outcome decided purely by the final
magnet-to-target distance against `arrived_at`. -/
theorem reach_too_many_attempts_surfaced (check : Bool) (dPred arrived_at dFinal : ℚ)
    (ids : ArmJoint → ℕ) (arm : Arm) (anglesDeg : List ℚ) (mv mv2 : ℕ → Bool)
    (queue : List Command) :
    (doArmMotion mv = ActionStatus.success ∨
      doArmMotion mv = ActionStatus.too_many_attempts) ∧
    ((∀ k, k ≤ 200 → mv k = mv2 k) → doArmMotion mv = doArmMotion mv2) ∧
    (¬ (check = true ∧ arrived_at < dPred) →
      ∀ st tr q2, reachFor check dPred arrived_at ids arm anglesDeg mv dFinal queue =
          some (st, tr, q2) →
        (doArmMotion mv = ActionStatus.too_many_attempts →
          st = ActionStatus.too_many_attempts) ∧
        (doArmMotion mv = ActionStatus.success →
          st = if dFinal < arrived_at then ActionStatus.success
               else ActionStatus.failed_to_reach)) := by
  refine ⟨?_, ?_, ?_⟩
  · cases h : armLoop mv true 0 201 <;> simp [doArmMotion, h]
  · intro hagree
    rw [doArmMotion, doArmMotion,
      armLoop_congr mv mv2 201 true 0 (fun k _ hk2 => hagree k hk2)]
  · intro hguard st tr q2 h
    rw [reachFor] at h
    rcases hik : startIK check dPred arrived_at ids arm anglesDeg
        (queue ++ [Command.enable_image_sensor false]) with _ | ⟨st1, q1⟩
    · rw [hik] at h; simp at h
    · rw [hik] at h
      simp only at h
      have hst1 : st1 = ActionStatus.success := by
        rw [startIK, if_neg hguard] at hik
        rcases hwalk : walkCommands ids (jointOrder arm) anglesDeg with _ | cmds
        · rw [hwalk] at hik; simp at hik
        · rw [hwalk] at hik
          simp only [Option.some.injEq, Prod.mk.injEq] at hik
          exact hik.1.symm
      rw [if_pos hst1] at h
      by_cases harm : doArmMotion mv = ActionStatus.success
      · rw [if_pos harm] at h
        simp only [Option.some.injEq, Prod.mk.injEq] at h
        constructor
        · intro htma
          rw [harm] at htma
          simp at htma
        · intro _
          exact h.1.symm
      · rw [if_neg harm] at h
        simp only [Option.some.injEq, Prod.mk.injEq] at h
        constructor
        · intro htma
          exact h.1.symm.trans htma
        · intro hsucc
          exact absurd hsucc harm

/-- Witness for `reach_too_many_attempts_surfaced`: with joints that
settle immediately and a magnet distance inside tolerance, the outcome
is the distance-decided `success`. -/
theorem reach_surfaced_witness :
    ActionStatus.success =
      (if (0 : ℚ) < 1 then ActionStatus.success else ActionStatus.failed_to_reach) := by
  have h := reach_too_many_attempts_surfaced false 0 1 0 (fun _ => 0) Arm.left
    [0, 0, 0, 0, 0, 0, 0, 0] (fun _ => false) (fun _ => false) []
  exact (h.2.2 (by simp) ActionStatus.success [BracketEv.startAction, BracketEv.endAction]
    ([Command.enable_image_sensor false] ++
      [Command.set_revolute_target 0 0, Command.set_spherical_target 0 0 0 0,
       Command.set_revolute_target 0 0, Command.set_spherical_target 0 0 0 0])
    (by decide)).2 (by decide)

/-- Claim C6 (confirmed).  When `check_if_possible` holds and the
IK-predicted end-effector distance exceeds `arrived_at`, `_start_ik`
returns `too_far_to_reach` before the command walk and leaves the
pending command queue exactly as it was, and `reach_for` returns that
status with the queue containing only the action-bracketing
sensor-disable command beyond its input. -/
theorem too_far_to_reach_no_commands (dPred arrived_at dFinal : ℚ) (ids : ArmJoint → ℕ)
    (arm : Arm) (anglesDeg : List ℚ) (mv : ℕ → Bool) (queue : List Command)
    (h : arrived_at < dPred) :
    startIK true dPred arrived_at ids arm anglesDeg queue =
      some (ActionStatus.too_far_to_reach, queue) ∧
    reachFor true dPred arrived_at ids arm anglesDeg mv dFinal queue =
      some (ActionStatus.too_far_to_reach,
        [BracketEv.startAction, BracketEv.endAction],
        queue ++ [Command.enable_image_sensor false]) := by
  have hg : (true = true ∧ arrived_at < dPred) := ⟨rfl, h⟩
  constructor
  · rw [startIK, if_pos hg]
  · rw [reachFor, startIK, if_pos hg]
    simp

/-- Witness for `too_far_to_reach_no_commands` at a concrete too-far
predicted distance. -/
theorem too_far_to_reach_no_commands_witness :
    startIK true 2 1 (fun _ => 0) Arm.left [] [] =
      some (ActionStatus.too_far_to_reach, []) ∧
    reachFor true 2 1 (fun _ => 0) Arm.left [] (fun _ => true) 0 [] =
      some (ActionStatus.too_far_to_reach,
        [BracketEv.startAction, BracketEv.endAction],
        [Command.enable_image_sensor false]) := by
  have h := too_far_to_reach_no_commands 2 1 0 (fun _ => 0) Arm.left [] (fun _ => true) []
    (by norm_num)
  simpa using h

/-- Claim C8, counterexample.  `turn_to` is a public action but executes
the sensor-disabling `_start_action` step twice: once itself (line 407)
and once inside the public `turn_by` it delegates to (line 336) — not
exactly once as the claim asserts for every public action. -/
theorem bracket_once_cex :
    ((turnTo 0 15 3 (fun _ => 0)).2.count BracketEv.startAction = 2) ∧ 2 ≠ 1 := by
  constructor
  · rw [turnTo_trace]
    decide
  · decide

/-- Claim C8 as amended.  The primitive public actions `turn_by`,
`move_by`, `reach_for` (whenever it returns at all), `reset_arm` and
`reset_arms` execute the bracket-opening start step and the
bracket-closing end step exactly once per call.  The composite actions,
however, call the PUBLIC primitive entry points, not internals:
`turn_to` opens the bracket twice and closes it once, and `move_to`
(which goes through `turn_to` and, on the moving path, through the
public `move_by`) opens it four times on the moving path and three times
otherwise, closing it twice either way. -/
theorem bracket_counts (angle speed aligned_at distance mspeed arrived_at moveDist : ℚ)
    (moveOnTurnFail : Bool) (obs dObs : ℕ → ℚ) (check : Bool)
    (dPred reach_arrived dFinal : ℚ) (ids : ArmJoint → ℕ) (arm : Arm)
    (anglesDeg : List ℚ) (mv : ℕ → Bool) (queue : List Command) :
    ((turnBy angle speed aligned_at obs).2.count BracketEv.startAction = 1 ∧
      (turnBy angle speed aligned_at obs).2.count BracketEv.endAction = 1) ∧
    ((moveBy distance mspeed arrived_at dObs).2.count BracketEv.startAction = 1 ∧
      (moveBy distance mspeed arrived_at dObs).2.count BracketEv.endAction = 1) ∧
    ((resetArm ids arm mv queue).2.1.count BracketEv.startAction = 1 ∧
      (resetArm ids arm mv queue).2.1.count BracketEv.endAction = 1) ∧
    ((resetArms ids mv queue).2.1.count BracketEv.startAction = 1 ∧
      (resetArms ids mv queue).2.1.count BracketEv.endAction = 1) ∧
    (∀ st tr q2, reachFor check dPred reach_arrived ids arm anglesDeg mv dFinal queue =
        some (st, tr, q2) →
      tr.count BracketEv.startAction = 1 ∧ tr.count BracketEv.endAction = 1) ∧
    ((turnTo angle speed aligned_at obs).2.count BracketEv.startAction = 2 ∧
      (turnTo angle speed aligned_at obs).2.count BracketEv.endAction = 1) ∧
    ((moveTo angle moveDist speed aligned_at mspeed arrived_at moveOnTurnFail obs
        dObs).2.count BracketEv.startAction =
      (if (turnTo angle speed aligned_at obs).1 = ActionStatus.success ∨
          moveOnTurnFail = true then 4 else 3) ∧
      (moveTo angle moveDist speed aligned_at mspeed arrived_at moveOnTurnFail obs
        dObs).2.count BracketEv.endAction = 2) := by
  refine ⟨⟨?_, ?_⟩, ⟨?_, ?_⟩, ⟨?_, ?_⟩, ⟨?_, ?_⟩, ?_, ⟨?_, ?_⟩, ?_, ?_⟩
  · rw [turnBy_trace]; decide
  · rw [turnBy_trace]; decide
  · rw [moveBy_trace]; decide
  · rw [moveBy_trace]; decide
  · show ([BracketEv.startAction, BracketEv.endAction].count BracketEv.startAction) = 1
    decide
  · show ([BracketEv.startAction, BracketEv.endAction].count BracketEv.endAction) = 1
    decide
  · show ([BracketEv.startAction, BracketEv.endAction].count BracketEv.startAction) = 1
    decide
  · show ([BracketEv.startAction, BracketEv.endAction].count BracketEv.endAction) = 1
    decide
  · intro st tr q2 h
    rw [reachFor_trace check dPred reach_arrived ids arm anglesDeg mv dFinal queue st tr q2 h]
    exact ⟨by decide, by decide⟩
  · rw [turnTo_trace]; decide
  · rw [turnTo_trace]; decide
  · rw [moveTo]
    by_cases hcond : (turnTo angle speed aligned_at obs).1 = ActionStatus.success ∨
        moveOnTurnFail = true
    · rw [if_pos hcond, if_pos hcond]
      simp only [turnTo_trace, moveBy_trace, List.count_append, List.count_cons,
        List.count_nil]
      decide
    · rw [if_neg hcond, if_neg hcond]
      simp only [turnTo_trace, List.count_append, List.count_cons, List.count_nil]
      decide
  · rw [moveTo]
    by_cases hcond : (turnTo angle speed aligned_at obs).1 = ActionStatus.success ∨
        moveOnTurnFail = true
    · rw [if_pos hcond]
      simp only [turnTo_trace, moveBy_trace, List.count_append, List.count_cons,
        List.count_nil]
      decide
    · rw [if_neg hcond]
      simp only [turnTo_trace, List.count_append, List.count_cons, List.count_nil]
      decide

/-- Witness for `bracket_counts`: the double-start of `turn_to` and the
single bracket of a concrete completed `reach_for` call. -/
theorem bracket_counts_witness :
    ((turnTo 7 15 3 (fun _ => 0)).2.count BracketEv.startAction = 2) ∧
    ([BracketEv.startAction, BracketEv.endAction].count BracketEv.startAction = 1 ∧
      [BracketEv.startAction, BracketEv.endAction].count BracketEv.endAction = 1) := by
  have h := bracket_counts 7 15 3 0 15 1 1 false (fun _ => 0) (fun _ => 0) true 2 1 0
    (fun _ => 0) Arm.left [] (fun _ => true) []
  refine ⟨h.2.2.2.2.2.1.1, ?_⟩
  exact h.2.2.2.2.1 ActionStatus.too_far_to_reach
    [BracketEv.startAction, BracketEv.endAction]
    [Command.enable_image_sensor false] (by decide)

theorem walkCommands_len7 (ids : ArmJoint → ℕ) (arm : Arm) :
    ∀ l : List ℚ, l.length = 7 → walkCommands ids (jointOrder arm) l = none := by
  intro l hl
  rcases l with _ | ⟨a1, l⟩
  · simp at hl
  rcases l with _ | ⟨a2, l⟩
  · simp at hl
  rcases l with _ | ⟨a3, l⟩
  · simp at hl
  rcases l with _ | ⟨a4, l⟩
  · simp at hl
  rcases l with _ | ⟨a5, l⟩
  · simp at hl
  rcases l with _ | ⟨a6, l⟩
  · simp at hl
  rcases l with _ | ⟨a7, l⟩
  · simp at hl
  rcases l with _ | ⟨a8, l⟩
  · cases arm <;> rfl
  · simp at hl

/-- Claim C9 (code bug).  The degree-converted angle list of `_start_ik`
is `angles[1:-1]` of the IK solution, which has one angle per chain link
(9 links, line 935-975), hence 7 entries; but the translation walk
consumes `1 + 3 + 1 + 3 = 8` angles for the four joints of either arm's
joint order, so for EVERY solved-angle sequence of the chain's length the
walk reads past the end of the list (a Python `IndexError` on the third
component of the wrist spherical target) — contradicting the claim that
every index access is in bounds and that the walk consumes the sequence
exactly. -/
theorem ik_walk_out_of_bounds (ids : ArmJoint → ℕ) (deg : ℚ → ℚ) (raw : List ℚ)
    (arm : Arm) (h : raw.length = chainLinks.length) :
    walkCommands ids (jointOrder arm) ((stripAngles raw).map deg) = none := by
  apply walkCommands_len7
  have h9 : raw.length = 9 := by simpa [chainLinks] using h
  simp [stripAngles, h9]

/-- Witness for `ik_walk_out_of_bounds` at a concrete 9-angle IK
solution. -/
theorem ik_walk_out_of_bounds_witness :
    walkCommands (fun _ => 0) (jointOrder Arm.left)
      ((stripAngles [0, 0, 0, 0, 0, 0, 0, 0, 0]).map (fun a => a)) = none :=
  ik_walk_out_of_bounds (fun _ => 0) (fun a => a) [0, 0, 0, 0, 0, 0, 0, 0, 0]
    Arm.left (by rfl)

/-- Witness for `turn_angle_sign_wrap`: concrete evaluations of each
branch of the deviation computation and a concrete first-tick success. -/
theorem turn_angle_sign_wrap_witness :
    getAngle1 (-10) 200 = -200 ∧ getAngle1 20 200 = 160 ∧ getAngle1 20 100 = 100 ∧
    (turnBy 0 15 3 (fun _ => 0)).1 = ActionStatus.success := by
  have hcap : (0 : ℚ) < numAttemptsTurn 0 15 := by
    have h1 : (⌊|(0 : ℚ)| + 1⌋ : ℤ) = 1 := by norm_num
    rw [numAttemptsTurn, h1]
    norm_num
  refine ⟨?_, ?_, ?_, ?_⟩
  · have h := (turn_angle_sign_wrap (-10) 200 3 15 (fun _ => 0)).1 (by norm_num)
    rw [h]
  · have h := (turn_angle_sign_wrap 20 200 3 15 (fun _ => 0)).2.1 (by norm_num) (by norm_num)
    rw [h]
    norm_num
  · exact (turn_angle_sign_wrap 20 100 3 15 (fun _ => 0)).2.2.1 (by norm_num) (by norm_num)
  · refine (turn_angle_sign_wrap 0 0 3 15 (fun _ => 0)).2.2.2 hcap ?_
    norm_num [getAngle1]

/-- Witness for `turn_by_never_unaligned` at a concrete invocation. -/
theorem turn_by_never_unaligned_witness :
    (turnBy 5 15 3 (fun _ => 0)).1 ≠ ActionStatus.unaligned :=
  turn_by_never_unaligned 5 15 3 (fun _ => 0)
